import Mathlib

/-!
Shallow embedding of the robots-api service (Go) for specification checking.

Source files embedded here:
- handler/robots.go         : GetAllowedScrape, getRobotsTxt, requestToRobotsTxt,
                              UpdateCustomRule, isSuccess
- internal/cache/memcached.go : GetRobotsFile, SaveRobotsFile, generateDomainHash, hashURL
- internal/persistence/rule_repository.go : GetByUrl, GetById, Save, Update, Delete
- database/migration/2024-11-04__init.sql : custom_rule table (UNIQUE domain, PK id,
                              auto timestamps)

Modelling conventions:
- Go strings and byte slices are both modelled as Lean String (Go string(b) is the
  identity under this identification); a nil slice is distinguished from an empty one
  with Option.
- Machine integers are modelled as Nat/Int with explicit reduction mod 2^32 where the
  Go code computes in 32-bit words (SHA-256).
- External effects (database rows, memcached contents, the HTTP client response, the
  grobotstxt evaluator) are passed in explicitly as state / environment values.
- A Go panic (nil-pointer dereference) is a distinguished outcome of a computation.
-/

namespace RobotsApi

/-! ### Bytes, hex, base64, UTF-8 (Go standard library behaviour) -/

/-- UTF-8 encoding of a single character, as Go produces for string-to-bytes
conversion. -/
def utf8EncodeChar (c : Char) : List Nat :=
  let n := c.toNat
  if n < 128 then [n]
  else if n < 2048 then [192 ||| (n >>> 6), 128 ||| (n &&& 63)]
  else if n < 65536 then
    [224 ||| (n >>> 12), 128 ||| ((n >>> 6) &&& 63), 128 ||| (n &&& 63)]
  else
    [240 ||| (n >>> 18), 128 ||| ((n >>> 12) &&& 63),
     128 ||| ((n >>> 6) &&& 63), 128 ||| (n &&& 63)]

/-- The bytes of a Go string (UTF-8). -/
def utf8Bytes (s : String) : List Nat :=
  (s.data.map utf8EncodeChar).flatten

/-- Lower-case hexadecimal digit, as in encoding/hex. -/
def hexDigit (n : Nat) : Char :=
  if n < 10 then Char.ofNat (48 + n) else Char.ofNat (87 + n)

/-- encoding/hex.EncodeToString. -/
def hexEncode (bs : List Nat) : String :=
  String.mk ((bs.map (fun b => [hexDigit (b / 16), hexDigit (b % 16)])).flatten)

/-- Standard base64 alphabet character (encoding/base64.StdEncoding). -/
def base64Char (n : Nat) : Char :=
  if n < 26 then Char.ofNat (65 + n)
  else if n < 52 then Char.ofNat (97 + (n - 26))
  else if n < 62 then Char.ofNat (48 + (n - 52))
  else if n = 62 then '+'
  else '/'

/-- encoding/base64.StdEncoding applied to a byte list (with padding). -/
def base64Encode : List Nat → List Char
  | [] => []
  | [b1] =>
    [base64Char (b1 >>> 2), base64Char ((b1 &&& 3) <<< 4), '=', '=']
  | [b1, b2] =>
    [base64Char (b1 >>> 2), base64Char (((b1 &&& 3) <<< 4) ||| (b2 >>> 4)),
     base64Char ((b2 &&& 15) <<< 2), '=']
  | b1 :: b2 :: b3 :: rest =>
    base64Char (b1 >>> 2) :: base64Char (((b1 &&& 3) <<< 4) ||| (b2 >>> 4)) ::
    base64Char (((b2 &&& 15) <<< 2) ||| (b3 >>> 6)) :: base64Char (b3 &&& 63) ::
    base64Encode rest

/-- encoding/json.Marshal of a Go byte slice: the base64 text wrapped in quotes. -/
def jsonMarshalBytes (s : String) : String :=
  String.mk ('"' :: base64Encode (utf8Bytes s) ++ ['"'])

/-! ### SHA-256 (crypto/sha256), over Nat with explicit mod 2^32 -/

def w32 : Nat := 4294967296

/-- 32-bit right rotation. -/
def rotr32 (n x : Nat) : Nat := ((x >>> n) ||| (x <<< (32 - n))) % w32

def shaS0 (x : Nat) : Nat := (rotr32 7 x) ^^^ (rotr32 18 x) ^^^ (x >>> 3)
def shaS1 (x : Nat) : Nat := (rotr32 17 x) ^^^ (rotr32 19 x) ^^^ (x >>> 10)
def shaB0 (x : Nat) : Nat := (rotr32 2 x) ^^^ (rotr32 13 x) ^^^ (rotr32 22 x)
def shaB1 (x : Nat) : Nat := (rotr32 6 x) ^^^ (rotr32 11 x) ^^^ (rotr32 25 x)
def shaCh (x y z : Nat) : Nat := (x &&& y) ^^^ ((x ^^^ 4294967295) &&& z)
def shaMaj (x y z : Nat) : Nat := (x &&& y) ^^^ (x &&& z) ^^^ (y &&& z)

/-- The 64 SHA-256 round constants. -/
def shaK : List Nat :=
  [1116352408, 1899447441, 3049323471, 3921009573, 961987163, 1508970993,
   2453635748, 2870763221, 3624381080, 310598401, 607225278, 1426881987,
   1925078388, 2162078206, 2614888103, 3248222580, 3835390401, 4022224774,
   264347078, 604807628, 770255983, 1249150122, 1555081692, 1996064986,
   2554220882, 2821834349, 2952996808, 3210313671, 3336571891, 3584528711,
   113926993, 338241895, 666307205, 773529912, 1294757372, 1396182291,
   1695183700, 1986661051, 2177026350, 2456956037, 2730485921, 2820302411,
   3259730800, 3345764771, 3516065817, 3600352804, 4094571909, 275423344,
   430227734, 506948616, 659060556, 883997877, 958139571, 1322822218,
   1537002063, 1747873779, 1955562222, 2024104815, 2227730452, 2361852424,
   2428436474, 2756734187, 3204031479, 3329325298]

/-- SHA-256 initial hash value. -/
def shaH0 : List Nat :=
  [1779033703, 3144134277, 1013904242, 2773480762,
   1359893119, 2600822924, 528734635, 1541459225]

/-- Message padding: append 0x80, zeros to 56 mod 64, then the 64-bit big-endian
bit length. -/
def shaPad (msg : List Nat) : List Nat :=
  let len := msg.length
  let zeros := (120 - ((len + 1) % 64)) % 64
  let bitLen := len * 8
  msg ++ [128] ++ List.replicate zeros 0 ++
    ((List.range 8).map (fun i => (bitLen >>> (8 * (7 - i))) % 256))

/-- Split a byte list into 64-byte chunks (fuel-based structural recursion; the fuel
is an upper bound on the number of chunks). -/
def shaChunksAux : Nat → List Nat → List (List Nat)
  | 0, _ => []
  | _ + 1, [] => []
  | fuel + 1, l => l.take 64 :: shaChunksAux fuel (l.drop 64)

/-- Split a byte list into 64-byte chunks. -/
def shaChunks (l : List Nat) : List (List Nat) :=
  shaChunksAux l.length l

/-- The 16 initial 32-bit big-endian words of a chunk. -/
def shaWords16 (chunk : List Nat) : List Nat :=
  (List.range 16).map (fun i =>
    chunk.getD (4 * i) 0 * 16777216 + chunk.getD (4 * i + 1) 0 * 65536 +
    chunk.getD (4 * i + 2) 0 * 256 + chunk.getD (4 * i + 3) 0)

/-- Extend the 16 words to the 64-word message schedule. -/
def shaSchedule (chunk : List Nat) : List Nat :=
  (List.range 48).foldl
    (fun ws i =>
      ws ++ [(ws.getD i 0 + shaS0 (ws.getD (i + 1) 0) + ws.getD (i + 9) 0 +
              shaS1 (ws.getD (i + 14) 0)) % w32])
    (shaWords16 chunk)

/-- One compression round on the 8-word state. -/
def shaRound (st : List Nat) (k wt : Nat) : List Nat :=
  let a := st.getD 0 0
  let b := st.getD 1 0
  let c := st.getD 2 0
  let d := st.getD 3 0
  let e := st.getD 4 0
  let f := st.getD 5 0
  let g := st.getD 6 0
  let h := st.getD 7 0
  let t1 := (h + shaB1 e + shaCh e f g + k + wt) % w32
  let t2 := (shaB0 a + shaMaj a b c) % w32
  [(t1 + t2) % w32, a, b, c, (d + t1) % w32, e, f, g]

/-- Compress one 64-byte chunk into the running hash state. -/
def shaCompress (st : List Nat) (chunk : List Nat) : List Nat :=
  let ws := shaSchedule chunk
  let f := (List.range 64).foldl (fun s t => shaRound s (shaK.getD t 0) (ws.getD t 0)) st
  (List.range 8).map (fun i => (st.getD i 0 + f.getD i 0) % w32)

/-- SHA-256 of a byte list, as 32 bytes. -/
def sha256Bytes (msg : List Nat) : List Nat :=
  let final := (shaChunks (shaPad msg)).foldl shaCompress shaH0
  (final.map (fun word => (List.range 4).map (fun i => (word >>> (8 * (3 - i))) % 256))).flatten

/-- hashURL (memcached.go): sha256 of the string, hex encoded. -/
def hashURL (url : String) : String :=
  hexEncode (sha256Bytes (utf8Bytes url))

/-! ### Domain normalizer (util package) -/

/-- Split a character list at the first occurrence of the three characters of a
scheme separator, returning the parts before and after it. -/
def splitSchemeSep : List Char → Option (List Char × List Char)
  | [] => none
  | ':' :: '/' :: '/' :: rest => some ([], rest)
  | c :: rest => (splitSchemeSep rest).map (fun p => (c :: p.1, p.2))

/-- The host[:port] part: everything up to the first path, query or fragment
delimiter. -/
def takeHostPort (l : List Char) : List Char :=
  l.takeWhile (fun c => c != '/' && c != '?' && c != '#')

/-- Modelled from the spec: the repository's util package (util.GetDomain,
util.GetBaseUrl) is not under src/, only its callers are. Per spec section 4.1 the
Domain Normalizer parses a URL into its scheme, bare hostname and
scheme://host[:port] origin, and fails when scheme or hostname is missing (the
error text is taken from the repository's handler tests). -/
def parseUrl (url : String) : Option (String × String × String) :=
  match splitSchemeSep url.data with
  | none => none
  | some (schemeCs, restCs) =>
    let hostPort := takeHostPort restCs
    let host := hostPort.takeWhile (fun c => c != ':')
    if schemeCs.isEmpty || host.isEmpty then none
    else some (String.mk schemeCs, String.mk host, String.mk hostPort)

/-- Modelled from the spec: util.GetDomain returns the bare hostname of the URL,
or an InvalidURL error. -/
def GetDomain (url : String) : Except String String :=
  match parseUrl url with
  | none => .error "invalid url. Url should contain scheme and hostname"
  | some (_, host, _) => .ok host

/-- Modelled from the spec: util.GetBaseUrl returns the scheme://host[:port]
origin of the URL, or an InvalidURL error. -/
def GetBaseUrl (url : String) : Except String String :=
  match parseUrl url with
  | none => .error "invalid url. Url should contain scheme and hostname"
  | some (scheme, _, hostPort) => .ok (scheme ++ "://" ++ hostPort)

/-! ### Robots cache (internal/cache/memcached.go)

The memcached contents are modelled as an association list from key to stored
value; an entry being present models a live (unexpired) entry with an available
backend. Backend errors and expiry are treated by the Go code identically to a
miss, which the association-list model represents by absence of the key. -/

/-- generateDomainHash (memcached.go): hash of the normalized domain, falling
back to the hash of the raw URL when normalization fails. -/
def generateDomainHash (url : String) : String :=
  match GetDomain url with
  | .error _ => hashURL url ++ "-robots-txt"
  | .ok domain => hashURL domain ++ "-robots-txt"

/-- The memcached key/value contents. -/
def KvStore : Type := List (String × String)

instance : DecidableEq KvStore := by
  unfold KvStore
  infer_instance

/-- memcached Set: replace any entry under the key. -/
def kvSet (store : KvStore) (key value : String) : KvStore :=
  (key, value) :: (store.filter (fun p => p.1 != key))

/-- memcached Get. -/
def kvGet (store : KvStore) (key : String) : Option String :=
  (store.find? (fun p => p.1 == key)).map (fun p => p.2)

/-- GetRobotsFile (memcached.go): look the key up; every failure (miss or backend
error) yields ("", false). -/
def GetRobotsFile (store : KvStore) (url : String) : String × Bool :=
  match kvGet store (generateDomainHash url) with
  | some v => (v, true)
  | none => ("", false)

/-- SaveRobotsFile (memcached.go): stores json.Marshal of the byte slice under the
domain-hash key (the set helper serializes with encoding/json). -/
def SaveRobotsFile (store : KvStore) (url : String) (robotFile : String) : KvStore :=
  kvSet store (generateDomainHash url) (jsonMarshalBytes robotFile)

/-! ### Decimal strings: strconv.Itoa and the MySQL string-to-number coercion -/

/-- Decimal digit character. -/
def decDigitChar (n : Nat) : Char := Char.ofNat (48 + n)

/-- Big-endian decimal digits of a Nat; fuel-based structural recursion, the fuel
only needs to exceed the number itself. -/
def natDecAux : Nat → Nat → List Char
  | 0, _ => []
  | fuel + 1, n =>
    if n < 10 then [decDigitChar n]
    else natDecAux fuel (n / 10) ++ [decDigitChar (n % 10)]

def natDec (n : Nat) : List Char := natDecAux (n + 1) n

/-- strconv.Itoa: the standard decimal representation of a Go int. -/
def itoa (i : Int) : String :=
  if i < 0 then String.mk ('-' :: natDec i.natAbs) else String.mk (natDec i.toNat)

/-- Fold decimal digits onto an accumulator, stopping at the first non-digit
character (the numeric-prefix behaviour of MySQL's string-to-number coercion). -/
def parseDecAcc (acc : Nat) : List Char → Nat
  | [] => acc
  | c :: cs =>
    if 48 ≤ c.toNat ∧ c.toNat ≤ 57 then parseDecAcc (acc * 10 + (c.toNat - 48)) cs
    else acc

/-- MySQL coercion of a string comparand for a numeric column (id = ?): the
longest numeric prefix, 0 when there is none. -/
def mysqlIntOfString (s : String) : Int :=
  match s.data with
  | [] => 0
  | c :: cs =>
    if c = '-' then -(parseDecAcc 0 cs : Nat)
    else (parseDecAcc 0 (c :: cs) : Nat)

theorem parseDecAcc_append (l1 l2 : List Char) :
    ∀ acc, (∀ c ∈ l1, 48 ≤ c.toNat ∧ c.toNat ≤ 57) →
      parseDecAcc acc (l1 ++ l2) = parseDecAcc (parseDecAcc acc l1) l2 := by
  induction l1 with
  | nil => intro acc _; rfl
  | cons c cs ih =>
    intro acc h
    have hc := h c (List.mem_cons_self c cs)
    simp only [List.cons_append, parseDecAcc, if_pos hc]
    exact ih _ (fun d hd => h d (List.mem_cons_of_mem c hd))

theorem natDecAux_digits :
    ∀ fuel n, n < fuel → ∀ c ∈ natDecAux fuel n, 48 ≤ c.toNat ∧ c.toNat ≤ 57 := by
  intro fuel
  induction fuel with
  | zero => intro n hn; omega
  | succ fuel ih =>
    intro n hn c hc
    by_cases h10 : n < 10
    · simp only [natDecAux, if_pos h10, List.mem_singleton] at hc
      subst hc
      have : ∀ m, m < 10 → 48 ≤ (decDigitChar m).toNat ∧ (decDigitChar m).toNat ≤ 57 := by
        decide
      exact this n h10
    · simp only [natDecAux, if_neg h10, List.mem_append, List.mem_singleton] at hc
      rcases hc with hc | hc
      · have hdiv : n / 10 < fuel := by
          have h1 : n / 10 < n := Nat.div_lt_self (by omega) (by omega)
          omega
        exact ih (n / 10) hdiv c hc
      · subst hc
        have : ∀ m, m < 10 → 48 ≤ (decDigitChar m).toNat ∧ (decDigitChar m).toNat ≤ 57 := by
          decide
        exact this (n % 10) (Nat.mod_lt n (by omega))

theorem natDecAux_parse :
    ∀ fuel n, n < fuel → ∀ acc,
      parseDecAcc acc (natDecAux fuel n) = acc * 10 ^ (natDecAux fuel n).length + n := by
  intro fuel
  induction fuel with
  | zero => intro n hn; omega
  | succ fuel ih =>
    intro n hn acc
    by_cases h10 : n < 10
    · have hval : ∀ m, m < 10 →
          (48 ≤ (decDigitChar m).toNat ∧ (decDigitChar m).toNat ≤ 57) ∧
          (decDigitChar m).toNat - 48 = m := by decide
      simp only [natDecAux, if_pos h10, parseDecAcc, if_pos (hval n h10).1,
        (hval n h10).2, List.length_singleton, pow_one]
    · have hdiv : n / 10 < fuel := by
        have h1 : n / 10 < n := Nat.div_lt_self (by omega) (by omega)
        omega
      have hdigits := natDecAux_digits fuel (n / 10) hdiv
      have hval : ∀ m, m < 10 →
          (48 ≤ (decDigitChar m).toNat ∧ (decDigitChar m).toNat ≤ 57) ∧
          (decDigitChar m).toNat - 48 = m := by decide
      have hmod := hval (n % 10) (Nat.mod_lt n (by omega))
      simp only [natDecAux, if_neg h10, parseDecAcc_append _ _ acc hdigits,
        ih (n / 10) hdiv acc, parseDecAcc, if_pos hmod.1, hmod.2,
        List.length_append, List.length_singleton]
      have : acc * 10 ^ ((natDecAux fuel (n / 10)).length + 1)
           = acc * 10 ^ (natDecAux fuel (n / 10)).length * 10 := by ring
      rw [this]
      omega

theorem parse_natDec (n : Nat) : parseDecAcc 0 (natDec n) = n := by
  have := natDecAux_parse (n + 1) n (Nat.lt_succ_self n) 0
  simpa [natDec] using this

theorem natDec_head_digit (n : Nat) :
    ∃ c cs, natDec n = c :: cs ∧ 48 ≤ c.toNat ∧ c.toNat ≤ 57 := by
  have hne : natDec n ≠ [] := by
    unfold natDec natDecAux
    by_cases h10 : n < 10 <;> simp [h10]
  obtain ⟨c, cs, hcs⟩ := List.exists_cons_of_ne_nil hne
  refine ⟨c, cs, hcs, ?_⟩
  have := natDecAux_digits (n + 1) n (Nat.lt_succ_self n) c (by rw [natDec] at hcs; rw [hcs]; exact List.mem_cons_self c cs)
  exact this

/-- strconv.Itoa followed by the MySQL numeric coercion is the identity: the
repository's Update re-reads by GetById(strconv.Itoa(rule.ID)). -/
theorem mysqlIntOfString_itoa (i : Int) : mysqlIntOfString (itoa i) = i := by
  by_cases hneg : i < 0
  · simp only [itoa, if_pos hneg, mysqlIntOfString]
    simp only [if_true, parse_natDec]
    omega
  · simp only [itoa, if_neg hneg, mysqlIntOfString]
    obtain ⟨c, cs, hcs, hc48, hc57⟩ := natDec_head_digit i.toNat
    rw [hcs]
    have hcne : ¬(c = '-') := by
      intro h
      subst h
      have : ('-').toNat = 45 := by decide
      omega
    simp only [if_neg hcne, ← hcs, parse_natDec]
    omega

/-! ### The custom_rule table (database/migration/2024-11-04__init.sql)

id INT AUTO_INCREMENT PRIMARY KEY, domain VARCHAR(80) NOT NULL UNIQUE,
robots_txt TEXT NOT NULL, created_at/updated_at TIMESTAMP with automatic
defaults. The database state is the list of rows plus the auto-increment
counter; CURRENT_TIMESTAMP is passed in as an explicit clock value. -/

/-- A row of custom_rule (internal/model/rule.go Rule). -/
structure Rule where
  id : Int
  domain : String
  robotsTxt : String
  createdAt : Nat
  updatedAt : Nat
deriving DecidableEq

structure CustomRuleTable where
  rows : List Rule
  nextId : Int
deriving DecidableEq

/-- A freshly created table: AUTO_INCREMENT starts at 1. -/
def emptyTable : CustomRuleTable := ⟨[], 1⟩

/-- Does some row already use the domain (the UNIQUE key)? -/
def domainTaken (t : CustomRuleTable) (d : String) : Bool :=
  t.rows.any (fun r => r.domain == d)

/-- MySQL duplicate-key error text for the unique domain key. -/
def dupEntryError (d : String) : String :=
  "Error 1062 (23000): Duplicate entry '" ++ d ++ "' for key 'custom_rule.domain'"

/-- INSERT INTO custom_rule (domain, robots_txt) VALUES (?, ?): assigns the
auto-increment id and CURRENT_TIMESTAMP creation/modification times, and fails
without change when the domain violates the UNIQUE constraint. -/
def sqlInsert (t : CustomRuleTable) (domain robotsTxt : String) (now : Nat) :
    Except String (CustomRuleTable × Int) :=
  if domainTaken t domain then .error (dupEntryError domain)
  else .ok (⟨t.rows ++ [⟨t.nextId, domain, robotsTxt, now, now⟩], t.nextId + 1⟩, t.nextId)

/-- The effect of UPDATE ... SET domain = ?, robots_txt = ? WHERE id = ? on one
row: ON UPDATE CURRENT_TIMESTAMP refreshes updated_at only when the row actually
changes. -/
def applySet (id : Int) (domain robotsTxt : String) (now : Nat) (r : Rule) : Rule :=
  if r.id = id then
    if r.domain = domain ∧ r.robotsTxt = robotsTxt then r
    else { r with domain := domain, robotsTxt := robotsTxt, updatedAt := now }
  else r

/-- UPDATE custom_rule SET domain = ?, robots_txt = ? WHERE id = ?: fails without
change when it would give the matched row a domain another row already has;
matching zero rows (a non-existent id) is a success that changes nothing. -/
def sqlUpdate (t : CustomRuleTable) (id : Int) (domain robotsTxt : String) (now : Nat) :
    Except String CustomRuleTable :=
  if t.rows.any (fun r => r.id == id) &&
     t.rows.any (fun r => r.domain == domain && r.id != id) then
    .error (dupEntryError domain)
  else .ok ⟨t.rows.map (applySet id domain robotsTxt now), t.nextId⟩

/-- DELETE FROM custom_rule WHERE id = ?: always succeeds. -/
def sqlDelete (t : CustomRuleTable) (id : Int) : CustomRuleTable :=
  ⟨t.rows.filter (fun r => r.id != id), t.nextId⟩

/-- SELECT ... WHERE domain = ?. -/
def sqlSelectByDomain (t : CustomRuleTable) (d : String) : Option Rule :=
  t.rows.find? (fun r => r.domain == d)

/-- SELECT ... WHERE id = ?. -/
def sqlSelectById (t : CustomRuleTable) (id : Int) : Option Rule :=
  t.rows.find? (fun r => r.id == id)

/-! ### Rule repository (internal/persistence/rule_repository.go)

Each operation returns its Go result together with the table state after the
statement. The create-path mutex makes the operations atomic; the embedding is
the resulting sequential semantics. -/

namespace RuleRepository

/-- GetByUrl: normalize the URL to its domain, then select by domain. -/
def GetByUrl (t : CustomRuleTable) (url : String) : Except String Rule :=
  match GetDomain url with
  | .error e => .error ("failed to parse url. " ++ e)
  | .ok domain =>
    match sqlSelectByDomain t domain with
    | none => .error ("rule with domain '" ++ domain ++ "' not found")
    | some rule => .ok rule

/-- GetById: the id arrives as a string and is compared against the numeric id
column under MySQL's coercion. -/
def GetById (t : CustomRuleTable) (id : String) : Except String Rule :=
  match sqlSelectById t (mysqlIntOfString id) with
  | none => .error ("rule with id '" ++ id ++ "' not found")
  | some rule => .ok rule

/-- Save: INSERT and return LastInsertId. -/
def Save (t : CustomRuleTable) (rule : Rule) (now : Nat) :
    Except String Int × CustomRuleTable :=
  match sqlInsert t rule.domain rule.robotsTxt now with
  | .error e => (.error e, t)
  | .ok (t2, newId) => (.ok newId, t2)

/-- Update: UPDATE by id, then re-read the row with GetById(strconv.Itoa(id)). -/
def Update (t : CustomRuleTable) (rule : Rule) (now : Nat) :
    Except String Rule × CustomRuleTable :=
  match sqlUpdate t rule.id rule.domain rule.robotsTxt now with
  | .error e => (.error e, t)
  | .ok t2 => (GetById t2 (itoa rule.id), t2)

/-- Delete: DELETE by id; an id that matches nothing is still a success. -/
def Delete (t : CustomRuleTable) (ruleId : String) :
    Except String Unit × CustomRuleTable :=
  (.ok (), sqlDelete t (mysqlIntOfString ruleId))

end RuleRepository

/-- The rule-store states reachable through the repository operations, starting
from the fresh table. -/
inductive Reachable : CustomRuleTable → Prop where
  | init : Reachable emptyTable
  | save (t : CustomRuleTable) (rule : Rule) (now : Nat) :
      Reachable t → Reachable (RuleRepository.Save t rule now).2
  | update (t : CustomRuleTable) (rule : Rule) (now : Nat) :
      Reachable t → Reachable (RuleRepository.Update t rule now).2
  | delete (t : CustomRuleTable) (ruleId : String) :
      Reachable t → Reachable (RuleRepository.Delete t ruleId).2

/-! ### Robots handler (handler/robots.go) -/

/-- Outcome of running a Go function: a normal return, or a runtime panic
(here always a nil-pointer dereference). -/
inductive GoResult (α : Type) where
  | ok : α → GoResult α
  | panicked : GoResult α
deriving DecidableEq

/-- isSuccess (robots.go): 2xx status codes. -/
def isSuccess (statusCode : Int) : Bool :=
  statusCode ≥ 200 && statusCode < 300

/-- The value http.Client.Do hands back when the response is non-nil: status
code, body bytes (a String under the bytes-as-string convention) and whether
reading the body fails. -/
structure HttpResp where
  statusCode : Int
  body : String
  readErr : Option String
deriving DecidableEq

/-- External behaviour a single GetAllowedScrape request observes: the rule-store
lookup result (pointer, error) as GetByUrl produces it, the memcached contents,
the (response, error) pair from http.Client.Do, and the grobotstxt.AgentAllowed
evaluator, a black box per the spec. -/
structure Env where
  db : Option Rule × Option String
  cacheStore : KvStore
  doResp : Option HttpResp × Option String
  agentAllowed : String → String → String → Bool

/-- What requestToRobotsTxt did: its return value (or panic), whether
http.Client.Do was reached, and whether the response body was closed and fully
drained. -/
structure FetchTrace where
  result : GoResult (Option String × Option String)
  doCalled : Bool
  bodyClosed : Bool
  bodyDrained : Bool
deriving DecidableEq

/-- requestToRobotsTxt (robots.go). The Go code registers
defer resp.Body.Close() immediately after Do and before inspecting the error, so
the deferred-argument evaluation dereferences resp before the error check: when
Do reports a transport error (nil response) the function panics. After a non-2xx
status it executes return nil, err where err is the nil error from Do. -/
def requestToRobotsTxt (env : Env) (url : String) : FetchTrace :=
  match GetBaseUrl url with
  | .error e =>
    ⟨.ok (none, some ("failed to parse url. " ++ e)), false, false, false⟩
  | .ok _ =>
    match env.doResp with
    | (none, _) => ⟨.panicked, true, false, false⟩
    | (some resp, err) =>
      match err with
      | some e => ⟨.ok (none, some e), true, true, false⟩
      | none =>
        if !isSuccess resp.statusCode then ⟨.ok (none, none), true, true, false⟩
        else
          match resp.readErr with
          | some e => ⟨.ok (none, some e), true, true, false⟩
          | none => ⟨.ok (some resp.body, none), true, true, true⟩

instance (ε α : Type) [DecidableEq ε] [DecidableEq α] : DecidableEq (Except ε α) :=
  fun x y =>
    match x, y with
    | .ok a, .ok b =>
      if h : a = b then isTrue (by rw [h]) else isFalse (by intro hh; cases hh; exact h rfl)
    | .error a, .error b =>
      if h : a = b then isTrue (by rw [h]) else isFalse (by intro hh; cases hh; exact h rfl)
    | .ok _, .error _ => isFalse (by intro hh; cases hh)
    | .error _, .ok _ => isFalse (by intro hh; cases hh)

/-- What getRobotsTxt did: its return value (or a propagated panic), whether the
cache was consulted, whether requestToRobotsTxt ran, and the cache contents
afterwards. -/
structure RobotsTxtTrace where
  result : GoResult (Except String String)
  cacheChecked : Bool
  fetchCalled : Bool
  cacheStoreAfter : KvStore
deriving DecidableEq

/-- getRobotsTxt (robots.go): cache-aside fetch of the live robots.txt. -/
def getRobotsTxt (env : Env) (url : String) : RobotsTxtTrace :=
  match GetRobotsFile env.cacheStore url with
  | (file, true) => ⟨.ok (.ok file), true, false, env.cacheStore⟩
  | (_, false) =>
    match (requestToRobotsTxt env url).result with
    | .panicked => ⟨.panicked, true, true, env.cacheStore⟩
    | .ok (resp, err) =>
      match err with
      | some e => ⟨.ok (.error e), true, true, env.cacheStore⟩
      | none =>
        match resp with
        | none => ⟨.ok (.error "empty response"), true, true, env.cacheStore⟩
        | some body =>
          if body = "" then ⟨.ok (.error "empty response"), true, true, env.cacheStore⟩
          else ⟨.ok (.ok body), true, true, SaveRobotsFile env.cacheStore url body⟩

/-- What GetAllowedScrape did: HTTP status and plain-text body of the response
(or a propagated panic), which collaborators ran, and the cache afterwards. -/
structure ScrapeTrace where
  result : GoResult (Int × String)
  dbQueried : Bool
  cacheChecked : Bool
  fetchCalled : Bool
  cacheStoreAfter : KvStore
deriving DecidableEq

/-- The live-ruleset path of GetAllowedScrape (no usable override). -/
def scrapeViaFetch (env : Env) (url userAgent : String) : ScrapeTrace :=
  let g := getRobotsTxt env url
  match g.result with
  | .panicked => ⟨.panicked, true, g.cacheChecked, g.fetchCalled, g.cacheStoreAfter⟩
  | .ok (.error e) =>
    ⟨.ok (500, "error: failed to load robots.txt. " ++ e),
     true, g.cacheChecked, g.fetchCalled, g.cacheStoreAfter⟩
  | .ok (.ok robotsTxt) =>
    ⟨.ok (200, if env.agentAllowed robotsTxt userAgent url then "true" else "false"),
     true, g.cacheChecked, g.fetchCalled, g.cacheStoreAfter⟩

/-- GetAllowedScrape (robots.go): parameter validation, override lookup, then
either direct evaluation of the override text or the cache-aside live fetch. -/
def GetAllowedScrape (env : Env) (url userAgent : String) : ScrapeTrace :=
  if url = "" then
    ⟨.ok (400, "error: 'url' query parameter is required"),
     false, false, false, env.cacheStore⟩
  else if userAgent = "" then
    ⟨.ok (400, "error: 'user_agent' query parameter is required"),
     false, false, false, env.cacheStore⟩
  else
    match env.db with
    | (some rule, none) =>
      if rule.robotsTxt = "" then scrapeViaFetch env url userAgent
      else
        ⟨.ok (200, if env.agentAllowed rule.robotsTxt userAgent url then "true" else "false"),
         true, false, false, env.cacheStore⟩
    | _ => scrapeViaFetch env url userAgent

/-- The JSON the update endpoint answers with: an error object on failure, the
updated rule object on success. -/
structure UpdateResp where
  status : Int
  errMsg : String
  payload : Option Rule
deriving DecidableEq

/-- UpdateCustomRule (robots.go): GetById, domain extraction, body read, then
Update; the 200 response carries the rule exactly as Update returned it. -/
def UpdateCustomRule (t : CustomRuleTable) (now : Nat) (id url body : String) :
    UpdateResp × CustomRuleTable :=
  if id = "" then (⟨400, "'id' query parameter is required", none⟩, t)
  else
    match RuleRepository.GetById t id with
    | .error e => (⟨404, e, none⟩, t)
    | .ok rule =>
      match GetDomain url with
      | .error e => (⟨500, "failed to parse url. " ++ e, none⟩, t)
      | .ok domain =>
        if body = "" then (⟨400, "custom rules are not found or empty", none⟩, t)
        else
          match RuleRepository.Update t { rule with domain := domain, robotsTxt := body } now with
          | (.error e, t2) => (⟨500, "failed to update custom rule. " ++ e, none⟩, t2)
          | (.ok result, t2) => (⟨200, "", some result⟩, t2)

/-! ### Theorems -/

set_option maxRecDepth 10000

/-- The condition under which GetAllowedScrape uses the stored override: the
lookup returned no error, a non-nil rule, and non-empty robots text. -/
def overrideUsable (p : Option Rule × Option String) : Prop :=
  p.2 = none ∧ ∃ r, p.1 = some r ∧ r.robotsTxt ≠ ""

/-- The live-fetch path never reads the rule-store lookup result. -/
theorem scrapeViaFetch_db_irrelevant (env : Env) (d2 : Option Rule × Option String)
    (url userAgent : String) :
    scrapeViaFetch { env with db := d2 } url userAgent = scrapeViaFetch env url userAgent := rfl

/-- With both parameters present and no usable override, GetAllowedScrape is
exactly the live-fetch path. -/
theorem no_override_fetch_path (env : Env) (url userAgent : String)
    (hu : url ≠ "") (ha : userAgent ≠ "") (hov : ¬ overrideUsable env.db) :
    GetAllowedScrape env url userAgent = scrapeViaFetch env url userAgent := by
  unfold GetAllowedScrape
  rw [if_neg hu, if_neg ha]
  rcases hdb : env.db with ⟨rOpt, eOpt⟩
  cases rOpt with
  | none => cases eOpt <;> rfl
  | some r =>
    cases eOpt with
    | some e => rfl
    | none =>
      have hr : r.robotsTxt = "" := by
        by_contra hne
        exact hov (by rw [hdb]; exact ⟨rfl, r, rfl, hne⟩)
      simp [hr]

/-- C1 (override precedence): when the rule-store lookup returns a rule with
non-empty robots text, GetAllowedScrape answers with the directive evaluator's
verdict on that override text, queries neither the Robots Cache nor the
Upstream Fetcher, and leaves the cache untouched. -/
theorem override_precedence (env : Env) (url userAgent : String) (rule : Rule)
    (hu : url ≠ "") (ha : userAgent ≠ "")
    (hdb : env.db = (some rule, none)) (htxt : rule.robotsTxt ≠ "") :
    GetAllowedScrape env url userAgent =
      ⟨.ok (200, if env.agentAllowed rule.robotsTxt userAgent url then "true" else "false"),
       true, false, false, env.cacheStore⟩ := by
  unfold GetAllowedScrape
  rw [if_neg hu, if_neg ha, hdb]
  simp [htxt]

theorem override_precedence_witness :
    GetAllowedScrape
        ⟨(some ⟨1, "example.com", "User-agent: * Disallow: /", 0, 0⟩, none), [],
         (some ⟨200, "User-agent: * Allow: /", none⟩, none), fun _ _ _ => false⟩
        "https://example.com/test" "bot"
      = ⟨.ok (200, "false"), true, false, false, []⟩ := by
  have h := override_precedence
    ⟨(some ⟨1, "example.com", "User-agent: * Disallow: /", 0, 0⟩, none), [],
     (some ⟨200, "User-agent: * Allow: /", none⟩, none), fun _ _ _ => false⟩
    "https://example.com/test" "bot" ⟨1, "example.com", "User-agent: * Disallow: /", 0, 0⟩
    (by decide) (by decide) rfl (by decide)
  simpa using h

/-- C10 (implicit): every rule-store lookup outcome that is not a usable
override (an error of any kind, a nil rule, or empty robots text) leaves the
response and all side effects exactly those of the no-override path; in
particular a persistence error never surfaces to the caller. -/
theorem lookup_failure_ignored (env : Env) (d2 : Option Rule × Option String)
    (url userAgent : String)
    (hu : url ≠ "") (ha : userAgent ≠ "")
    (h1 : ¬ overrideUsable env.db) (h2 : ¬ overrideUsable d2) :
    GetAllowedScrape env url userAgent = GetAllowedScrape { env with db := d2 } url userAgent := by
  rw [no_override_fetch_path env url userAgent hu ha h1,
      no_override_fetch_path { env with db := d2 } url userAgent hu ha h2]
  exact (scrapeViaFetch_db_irrelevant env d2 url userAgent).symm

theorem lookup_failure_ignored_witness :
    GetAllowedScrape
        ⟨(some ⟨1, "example.com", "X", 0, 0⟩, some "database connection lost"), [],
         (some ⟨200, "User-agent: *", none⟩, none), fun _ _ _ => true⟩
        "https://example.com/test" "bot"
      = GetAllowedScrape
        ⟨(none, some "rule with domain 'example.com' not found"), [],
         (some ⟨200, "User-agent: *", none⟩, none), fun _ _ _ => true⟩
        "https://example.com/test" "bot" := by
  have h := lookup_failure_ignored
    ⟨(some ⟨1, "example.com", "X", 0, 0⟩, some "database connection lost"), [],
     (some ⟨200, "User-agent: *", none⟩, none), fun _ _ _ => true⟩
    (none, some "rule with domain 'example.com' not found")
    "https://example.com/test" "bot"
    (by decide) (by decide)
    (by rintro ⟨hnone, -⟩; simp at hnone)
    (by rintro ⟨-, r, hr, -⟩; simp at hr)
  simpa using h

/-- On a cache miss, getRobotsTxt is determined by the fetch result. -/
theorem getRobotsTxt_miss (env : Env) (url : String)
    (hmiss : (GetRobotsFile env.cacheStore url).2 = false) :
    getRobotsTxt env url =
      (match (requestToRobotsTxt env url).result with
        | .panicked => ⟨.panicked, true, true, env.cacheStore⟩
        | .ok (resp, err) =>
          match err with
          | some e => ⟨.ok (.error e), true, true, env.cacheStore⟩
          | none =>
            match resp with
            | none => ⟨.ok (.error "empty response"), true, true, env.cacheStore⟩
            | some body =>
              if body = "" then ⟨.ok (.error "empty response"), true, true, env.cacheStore⟩
              else ⟨.ok (.ok body), true, true, SaveRobotsFile env.cacheStore url body⟩) := by
  unfold getRobotsTxt
  rw [show GetRobotsFile env.cacheStore url = ((GetRobotsFile env.cacheStore url).1, false) by
    rw [← hmiss]]

/-- C3 (empty or failed fetch is fatal and writes nothing): with no usable
override and a cache miss, a fetch that returns an error, a nil slice or an
empty body makes getRobotsTxt fail, the request answer 500, and the cache stay
unchanged; conversely any cache change comes from a successful non-empty fetch
whose body is what was stored and returned. -/
theorem empty_fetch_fatal (env : Env) (url userAgent : String)
    (hu : url ≠ "") (ha : userAgent ≠ "") (hov : ¬ overrideUsable env.db)
    (hmiss : (GetRobotsFile env.cacheStore url).2 = false) :
    (∀ resp errv, (requestToRobotsTxt env url).result = .ok (resp, errv) →
      (errv ≠ none ∨ resp = none ∨ resp = some "") →
      ∃ msg, (getRobotsTxt env url).result = .ok (.error msg) ∧
        (getRobotsTxt env url).cacheStoreAfter = env.cacheStore ∧
        (GetAllowedScrape env url userAgent).result
          = .ok (500, "error: failed to load robots.txt. " ++ msg) ∧
        (GetAllowedScrape env url userAgent).cacheStoreAfter = env.cacheStore) ∧
    ((getRobotsTxt env url).cacheStoreAfter ≠ env.cacheStore →
      ∃ body, body ≠ "" ∧ (requestToRobotsTxt env url).result = .ok (some body, none) ∧
        (getRobotsTxt env url).result = .ok (.ok body) ∧
        (getRobotsTxt env url).cacheStoreAfter = SaveRobotsFile env.cacheStore url body) := by
  have hscrape := no_override_fetch_path env url userAgent hu ha hov
  constructor
  · intro resp errv hfetch hfail
    have hgr := getRobotsTxt_miss env url hmiss
    rw [hfetch] at hgr
    cases errv with
    | some e =>
      refine ⟨e, ?_, ?_, ?_, ?_⟩ <;> simp [hgr, hscrape, scrapeViaFetch]
    | none =>
      cases resp with
      | none =>
        refine ⟨"empty response", ?_, ?_, ?_, ?_⟩ <;> simp [hgr, hscrape, scrapeViaFetch]
      | some body =>
        have hb : body = "" := by
          rcases hfail with h | h | h
          · exact absurd rfl h
          · exact absurd h (by simp)
          · exact Option.some_injective _ h
        subst hb
        refine ⟨"empty response", ?_, ?_, ?_, ?_⟩ <;> simp [hgr, hscrape, scrapeViaFetch]
  · intro hchange
    have hgr := getRobotsTxt_miss env url hmiss
    match hres : (requestToRobotsTxt env url).result with
    | .panicked =>
      rw [hres] at hgr
      exact absurd (by rw [hgr]) hchange
    | .ok (none, some e) =>
      rw [hres] at hgr
      exact absurd (by rw [hgr]) hchange
    | .ok (some b, some e) =>
      rw [hres] at hgr
      exact absurd (by rw [hgr]) hchange
    | .ok (none, none) =>
      rw [hres] at hgr
      exact absurd (by rw [hgr]) hchange
    | .ok (some body, none) =>
      rw [hres] at hgr
      by_cases hb : body = ""
      · subst hb
        refine absurd ?_ hchange
        simp [hgr]
      · refine ⟨body, hb, rfl, ?_, ?_⟩ <;> simp [hgr, hb]

theorem empty_fetch_fatal_witness :
    ∃ msg,
      (getRobotsTxt ⟨(none, some "rule with domain 'example.com' not found"), [],
          (some ⟨400, "", none⟩, none), fun _ _ _ => true⟩
        "https://example.com/test").result = .ok (.error msg) ∧
      (getRobotsTxt ⟨(none, some "rule with domain 'example.com' not found"), [],
          (some ⟨400, "", none⟩, none), fun _ _ _ => true⟩
        "https://example.com/test").cacheStoreAfter = [] ∧
      (GetAllowedScrape ⟨(none, some "rule with domain 'example.com' not found"), [],
          (some ⟨400, "", none⟩, none), fun _ _ _ => true⟩
        "https://example.com/test" "bot").result
        = .ok (500, "error: failed to load robots.txt. " ++ msg) ∧
      (GetAllowedScrape ⟨(none, some "rule with domain 'example.com' not found"), [],
          (some ⟨400, "", none⟩, none), fun _ _ _ => true⟩
        "https://example.com/test" "bot").cacheStoreAfter = [] :=
  (empty_fetch_fatal
    ⟨(none, some "rule with domain 'example.com' not found"), [],
     (some ⟨400, "", none⟩, none), fun _ _ _ => true⟩
    "https://example.com/test" "bot"
    (by decide) (by decide)
    (by rintro ⟨-, r, hr, -⟩; simp at hr)
    (by decide)).1 none none (by decide) (by right; left; rfl)

/-- C4, evaluated at the failing input (code bug): when http.Client.Do reports a
transport error — a nil response with a non-nil error, as the net/http contract
produces — requestToRobotsTxt panics on the deferred resp.Body instead of
terminating normally (the defer is registered before the error check is made);
and on a non-2xx response the function returns without draining the body. -/
theorem fetch_transport_error_panics :
    requestToRobotsTxt
        ⟨(none, some "nf"), [], (none, some "dial tcp: connection refused"), fun _ _ _ => true⟩
        "https://example.com/test"
      = ⟨.panicked, true, false, false⟩ ∧
    requestToRobotsTxt
        ⟨(none, some "nf"), [], (some ⟨404, "page not found", none⟩, none), fun _ _ _ => true⟩
        "https://example.com/test"
      = ⟨.ok (none, none), true, true, false⟩ := by
  exact ⟨rfl, rfl⟩

/-- C5 counterexample: a 404 response with no transport error makes
requestToRobotsTxt return the pair (nil bytes, nil error) — the error component
is nil, refuting the claim that every non-2xx response yields a non-nil
FetchError. -/
theorem fetch_non2xx_returns_nil_error :
    (requestToRobotsTxt
        ⟨(none, some "nf"), [], (some ⟨404, "page not found", none⟩, none), fun _ _ _ => true⟩
        "https://example.com/test").result
      = .ok ((none : Option String), (none : Option String)) := by
  exact rfl

/-- C5 as amended: a non-2xx response makes requestToRobotsTxt return no bytes
and a NIL error (the enclosing getRobotsTxt then converts the nil slice into the
uniform "empty response" failure), while a transport error (nil response)
panics on the deferred body close rather than returning an error. -/
theorem fetch_failure_classification (env : Env) (url baseUrl : String)
    (hbase : GetBaseUrl url = .ok baseUrl) :
    (∀ resp, env.doResp = (some resp, none) → isSuccess resp.statusCode = false →
      requestToRobotsTxt env url = ⟨.ok (none, none), true, true, false⟩) ∧
    (∀ resp, env.doResp = (some resp, none) → isSuccess resp.statusCode = false →
      (GetRobotsFile env.cacheStore url).2 = false →
      (getRobotsTxt env url).result = .ok (.error "empty response")) ∧
    (∀ e, env.doResp = (none, some e) →
      requestToRobotsTxt env url = ⟨.panicked, true, false, false⟩) := by
  have hreq : ∀ resp, env.doResp = (some resp, none) → isSuccess resp.statusCode = false →
      requestToRobotsTxt env url = ⟨.ok (none, none), true, true, false⟩ := by
    intro resp hdo hcode
    unfold requestToRobotsTxt
    rw [hbase, hdo]
    simp [hcode]
  refine ⟨hreq, ?_, ?_⟩
  · intro resp hdo hcode hmiss
    rw [getRobotsTxt_miss env url hmiss, hreq resp hdo hcode]
  · intro e hdo
    unfold requestToRobotsTxt
    rw [hbase, hdo]

theorem fetch_failure_classification_witness :
    requestToRobotsTxt
        ⟨(none, some "nf"), [], (some ⟨500, "oops", none⟩, none), fun _ _ _ => true⟩
        "http://example.org"
      = ⟨.ok (none, none), true, true, false⟩ ∧
    (getRobotsTxt
        ⟨(none, some "nf"), [], (some ⟨500, "oops", none⟩, none), fun _ _ _ => true⟩
        "http://example.org").result = .ok (.error "empty response") := by
  have h := fetch_failure_classification
    ⟨(none, some "nf"), [], (some ⟨500, "oops", none⟩, none), fun _ _ _ => true⟩
    "http://example.org" "http://example.org" (by decide)
  exact ⟨h.1 ⟨500, "oops", none⟩ rfl (by decide),
         h.2.1 ⟨500, "oops", none⟩ rfl (by decide) (by decide)⟩

/-- C2, evaluated at the failing input (code bug): SaveRobotsFile stores
json.Marshal of the byte slice (the base64 text in quotes) but GetRobotsFile
returns the stored bytes without unmarshalling, so the round trip reports
found = true with the JSON-encoded text instead of the saved ruleset. -/
theorem cache_roundtrip_returns_marshalled :
    GetRobotsFile
        (SaveRobotsFile [] "https://example.com/test" "User-agent: *")
        "https://example.com/test"
      = ("\"VXNlci1hZ2VudDogKg==\"", true) ∧
    "\"VXNlci1hZ2VudDogKg==\"" ≠ "User-agent: *" := by
  constructor
  · decide
  · decide

/-- C8 (delete idempotence): Delete reports success for every id, existing or
not, and deleting the same id twice leaves exactly the state of deleting it
once. -/
theorem delete_idempotent (t : CustomRuleTable) (ruleId : String) :
    (RuleRepository.Delete t ruleId).1 = .ok () ∧
    (RuleRepository.Delete (RuleRepository.Delete t ruleId).2 ruleId).1 = .ok () ∧
    (RuleRepository.Delete (RuleRepository.Delete t ruleId).2 ruleId).2
      = (RuleRepository.Delete t ruleId).2 := by
  refine ⟨rfl, rfl, ?_⟩
  simp only [RuleRepository.Delete, sqlDelete, List.filter_filter]
  congr 1
  apply List.filter_congr
  intro r _
  cases h : (r.id != mysqlIntOfString ruleId) <;> simp [h]

/-- C9 (cache-key invariance): URLs normalizing to the same domain share the
cache key, and a URL whose normalization fails is keyed by the hash of the raw
URL string. -/
theorem cache_key_invariance (u1 u2 u3 d e : String)
    (h1 : GetDomain u1 = .ok d) (h2 : GetDomain u2 = .ok d)
    (h3 : GetDomain u3 = .error e) :
    generateDomainHash u1 = generateDomainHash u2 ∧
    generateDomainHash u3 = hashURL u3 ++ "-robots-txt" := by
  constructor
  · unfold generateDomainHash
    rw [h1, h2]
  · unfold generateDomainHash
    rw [h3]

theorem cache_key_invariance_witness :
    generateDomainHash "https://example.com/a/b"
      = generateDomainHash "http://example.com/c?d=1" ∧
    generateDomainHash "no-scheme-url"
      = hashURL "no-scheme-url" ++ "-robots-txt" :=
  cache_key_invariance "https://example.com/a/b" "http://example.com/c?d=1" "no-scheme-url"
    "example.com" "invalid url. Url should contain scheme and hostname"
    (by decide) (by decide) (by decide)

/-! Invariants of the rule store. -/

/-- No two rows share a domain (the UNIQUE key). -/
def domainsUnique (t : CustomRuleTable) : Prop :=
  t.rows.Pairwise (fun a b => a.domain ≠ b.domain)

/-- No two rows share an id (the primary key). -/
def idsUnique (t : CustomRuleTable) : Prop :=
  t.rows.Pairwise (fun a b => a.id ≠ b.id)

/-- Every row id is below the auto-increment counter. -/
def idsBelowNext (t : CustomRuleTable) : Prop :=
  ∀ r ∈ t.rows, r.id < t.nextId

def StoreInv (t : CustomRuleTable) : Prop :=
  domainsUnique t ∧ idsUnique t ∧ idsBelowNext t

theorem applySet_id_eq (i : Int) (d txt : String) (now : Nat) (r : Rule) :
    (applySet i d txt now r).id = r.id := by
  unfold applySet
  by_cases h : r.id = i
  · by_cases h2 : r.domain = d ∧ r.robotsTxt = txt <;> simp [h, h2]
  · simp [h]

theorem applySet_domain (i : Int) (d txt : String) (now : Nat) (r : Rule) :
    (applySet i d txt now r).domain = if r.id = i then d else r.domain := by
  unfold applySet
  by_cases h : r.id = i
  · by_cases h2 : r.domain = d ∧ r.robotsTxt = txt
    · simp [h, h2.1, h2.2]
    · simp [h, h2]
  · simp [h]

theorem applySet_robotsTxt (i : Int) (d txt : String) (now : Nat) (r : Rule) :
    (applySet i d txt now r).robotsTxt = if r.id = i then txt else r.robotsTxt := by
  unfold applySet
  by_cases h : r.id = i
  · by_cases h2 : r.domain = d ∧ r.robotsTxt = txt
    · simp [h, h2.1, h2.2]
    · simp [h, h2]
  · simp [h]

/-- Save on a free domain: the appended row and the fresh id. -/
theorem save_insert_eq (t : CustomRuleTable) (rule : Rule) (now : Nat)
    (htaken : domainTaken t rule.domain = false) :
    RuleRepository.Save t rule now
      = (.ok t.nextId,
         ⟨t.rows ++ [⟨t.nextId, rule.domain, rule.robotsTxt, now, now⟩], t.nextId + 1⟩) := by
  unfold RuleRepository.Save sqlInsert
  simp [htaken]

/-- Save on a taken domain: the duplicate-entry failure, state unchanged. -/
theorem save_conflict_eq (t : CustomRuleTable) (rule : Rule) (now : Nat)
    (htaken : domainTaken t rule.domain = true) :
    RuleRepository.Save t rule now = (.error (dupEntryError rule.domain), t) := by
  unfold RuleRepository.Save sqlInsert
  simp [htaken]

/-- Update when the statement violates the domain key: failure, state
unchanged. -/
theorem update_conflict_eq (t : CustomRuleTable) (rule : Rule) (now : Nat)
    (hguard : (t.rows.any (fun r => r.id == rule.id) &&
      t.rows.any (fun r => r.domain == rule.domain && r.id != rule.id)) = true) :
    RuleRepository.Update t rule now = (.error (dupEntryError rule.domain), t) := by
  unfold RuleRepository.Update sqlUpdate
  simp [hguard]

/-- Update when the statement passes: rows rewritten, then re-read by id. -/
theorem update_apply_eq (t : CustomRuleTable) (rule : Rule) (now : Nat)
    (hguard : (t.rows.any (fun r => r.id == rule.id) &&
      t.rows.any (fun r => r.domain == rule.domain && r.id != rule.id)) = false) :
    RuleRepository.Update t rule now
      = (RuleRepository.GetById
           ⟨t.rows.map (applySet rule.id rule.domain rule.robotsTxt now), t.nextId⟩
           (itoa rule.id),
         ⟨t.rows.map (applySet rule.id rule.domain rule.robotsTxt now), t.nextId⟩) := by
  unfold RuleRepository.Update sqlUpdate
  simp [hguard]

theorem map_applySet_eq_self (l : List Rule) (i : Int) (d txt : String) (now : Nat)
    (h : ∀ r ∈ l, r.id ≠ i) : l.map (applySet i d txt now) = l := by
  have heach : ∀ r ∈ l, applySet i d txt now r = r := by
    intro r hr
    unfold applySet
    simp [h r hr]
  calc l.map (applySet i d txt now) = l.map id := List.map_congr_left heach
  _ = l := List.map_id l

theorem pairwise_domains_map (l : List Rule) (i : Int) (d txt : String) (now : Nat)
    (hdom : l.Pairwise (fun a b => a.domain ≠ b.domain))
    (hid : l.Pairwise (fun a b => a.id ≠ b.id))
    (hother : ∀ r ∈ l, r.domain = d → r.id = i) :
    (l.map (applySet i d txt now)).Pairwise (fun a b => a.domain ≠ b.domain) := by
  rw [List.pairwise_map]
  refine (hdom.and hid).imp_of_mem ?_
  intro a b ha hb hab
  rcases hab with ⟨hd, hidab⟩
  rw [applySet_domain, applySet_domain]
  by_cases hai : a.id = i <;> by_cases hbi : b.id = i
  · exact absurd (hai.trans hbi.symm) hidab
  · rw [if_pos hai, if_neg hbi]
    intro hdb
    exact hbi (hother b hb hdb.symm)
  · rw [if_neg hai, if_pos hbi]
    intro hda
    exact hai (hother a ha hda)
  · rw [if_neg hai, if_neg hbi]
    exact hd

theorem pairwise_ids_map (l : List Rule) (i : Int) (d txt : String) (now : Nat)
    (hid : l.Pairwise (fun a b => a.id ≠ b.id)) :
    (l.map (applySet i d txt now)).Pairwise (fun a b => a.id ≠ b.id) := by
  rw [List.pairwise_map]
  refine hid.imp_of_mem ?_
  intro a b _ _ hab
  rw [applySet_id_eq, applySet_id_eq]
  exact hab

theorem inv_save (t : CustomRuleTable) (rule : Rule) (now : Nat) (h : StoreInv t) :
    StoreInv (RuleRepository.Save t rule now).2 := by
  obtain ⟨hdom, hid, hlt⟩ := h
  by_cases htaken : domainTaken t rule.domain = true
  · rw [save_conflict_eq t rule now htaken]
    exact ⟨hdom, hid, hlt⟩
  · rw [Bool.not_eq_true] at htaken
    rw [save_insert_eq t rule now htaken]
    have hfree : ∀ r ∈ t.rows, r.domain ≠ rule.domain := by
      intro r hr heq
      rw [show domainTaken t rule.domain = true from
        List.any_eq_true.mpr ⟨r, hr, by simp [heq]⟩] at htaken
      cases htaken
    refine ⟨?_, ?_, ?_⟩
    · show (t.rows ++ [(⟨t.nextId, rule.domain, rule.robotsTxt, now, now⟩ : Rule)]).Pairwise
        (fun a b => a.domain ≠ b.domain)
      rw [List.pairwise_append]
      exact ⟨hdom, List.pairwise_singleton _ _,
        fun a ha b hb => by
          rw [List.mem_singleton] at hb
          subst hb
          exact hfree a ha⟩
    · show (t.rows ++ [(⟨t.nextId, rule.domain, rule.robotsTxt, now, now⟩ : Rule)]).Pairwise
        (fun a b => a.id ≠ b.id)
      rw [List.pairwise_append]
      exact ⟨hid, List.pairwise_singleton _ _,
        fun a ha b hb => by
          rw [List.mem_singleton] at hb
          subst hb
          exact Int.ne_of_lt (hlt a ha)⟩
    · intro r hr
      rw [List.mem_append, List.mem_singleton] at hr
      show r.id < t.nextId + 1
      rcases hr with hr | hr
      · have := hlt r hr
        omega
      · subst hr
        show t.nextId < t.nextId + 1
        omega

theorem inv_update (t : CustomRuleTable) (rule : Rule) (now : Nat) (h : StoreInv t) :
    StoreInv (RuleRepository.Update t rule now).2 := by
  obtain ⟨hdom, hid, hlt⟩ := h
  by_cases hguard : (t.rows.any (fun r => r.id == rule.id) &&
      t.rows.any (fun r => r.domain == rule.domain && r.id != rule.id)) = true
  · rw [update_conflict_eq t rule now hguard]
    exact ⟨hdom, hid, hlt⟩
  · rw [Bool.not_eq_true] at hguard
    rw [update_apply_eq t rule now hguard]
    have hlt2 : idsBelowNext
        ⟨t.rows.map (applySet rule.id rule.domain rule.robotsTxt now), t.nextId⟩ := by
      intro r hr
      rw [List.mem_map] at hr
      obtain ⟨a, ha, rfl⟩ := hr
      show (applySet rule.id rule.domain rule.robotsTxt now a).id < t.nextId
      rw [applySet_id_eq]
      exact hlt a ha
    cases hnoid : t.rows.any (fun r => r.id == rule.id) with
    | false =>
      have hnone : ∀ r ∈ t.rows, r.id ≠ rule.id := by
        intro r hr heq
        rw [show t.rows.any (fun r => r.id == rule.id) = true from
          List.any_eq_true.mpr ⟨r, hr, by simp [heq]⟩] at hnoid
        cases hnoid
      have hmapid := map_applySet_eq_self t.rows rule.id rule.domain rule.robotsTxt now hnone
      refine ⟨?_, ?_, hlt2⟩
      · show (t.rows.map (applySet rule.id rule.domain rule.robotsTxt now)).Pairwise
          (fun a b => a.domain ≠ b.domain)
        rw [hmapid]
        exact hdom
      · show (t.rows.map (applySet rule.id rule.domain rule.robotsTxt now)).Pairwise
          (fun a b => a.id ≠ b.id)
        rw [hmapid]
        exact hid
    | true =>
      have hnoother : t.rows.any (fun r => r.domain == rule.domain && r.id != rule.id)
          = false := by
        cases hval : t.rows.any (fun r => r.domain == rule.domain && r.id != rule.id) with
        | false => rfl
        | true =>
          rw [hnoid, hval] at hguard
          cases hguard
      have hother : ∀ r ∈ t.rows, r.domain = rule.domain → r.id = rule.id := by
        intro r hr heq
        by_contra hne
        rw [show t.rows.any (fun r => r.domain == rule.domain && r.id != rule.id) = true from
          List.any_eq_true.mpr ⟨r, hr, by simp [heq, hne]⟩] at hnoother
        cases hnoother
      exact ⟨pairwise_domains_map t.rows rule.id rule.domain rule.robotsTxt now hdom hid hother,
             pairwise_ids_map t.rows rule.id rule.domain rule.robotsTxt now hid, hlt2⟩

theorem inv_delete (t : CustomRuleTable) (ruleId : String) (h : StoreInv t) :
    StoreInv (RuleRepository.Delete t ruleId).2 := by
  obtain ⟨hdom, hid, hlt⟩ := h
  refine ⟨hdom.filter _, hid.filter _, ?_⟩
  intro r hr
  exact hlt r (List.mem_of_mem_filter hr)

theorem reachable_inv (t : CustomRuleTable) (h : Reachable t) : StoreInv t := by
  induction h with
  | init => exact ⟨List.Pairwise.nil, List.Pairwise.nil, by intro r hr; cases hr⟩
  | save t rule now _ ih => exact inv_save t rule now ih
  | update t rule now _ ih => exact inv_update t rule now ih
  | delete t ruleId _ ih => exact inv_delete t ruleId ih

theorem pairwise_filter_length_le_one (l : List Rule) (d : String)
    (h : l.Pairwise (fun a b => a.domain ≠ b.domain)) :
    (l.filter (fun r => r.domain == d)).length ≤ 1 := by
  induction l with
  | nil => simp
  | cons a l ih =>
    rw [List.pairwise_cons] at h
    by_cases ha : a.domain = d
    · have hnone : l.filter (fun r => r.domain == d) = [] := by
        rw [List.filter_eq_nil_iff]
        intro b hb
        simp only [beq_iff_eq]
        intro hbd
        exact h.1 b hb (by rw [ha, hbd])
      rw [List.filter_cons]
      simp [ha, hnone]
    · rw [List.filter_cons]
      simpa [ha] using ih h.2

/-- C6 (domain uniqueness): in every reachable store state each domain matches
at most one row; Save conflicts (with the duplicate-entry failure and no state
change) when the domain is already taken; and the one-row-per-domain property
survives Save, Update and Delete. -/
theorem domain_uniqueness (t : CustomRuleTable) (h : Reachable t) :
    (∀ d, (t.rows.filter (fun r => r.domain == d)).length ≤ 1) ∧
    (∀ rule now, domainTaken t rule.domain = true →
      RuleRepository.Save t rule now = (.error (dupEntryError rule.domain), t)) ∧
    (∀ rule now d,
      ((RuleRepository.Save t rule now).2.rows.filter (fun r => r.domain == d)).length ≤ 1 ∧
      ((RuleRepository.Update t rule now).2.rows.filter (fun r => r.domain == d)).length ≤ 1) ∧
    (∀ ruleId d,
      ((RuleRepository.Delete t ruleId).2.rows.filter (fun r => r.domain == d)).length ≤ 1) := by
  have hinv := reachable_inv t h
  refine ⟨fun d => pairwise_filter_length_le_one t.rows d hinv.1, ?_, ?_, ?_⟩
  · intro rule now htaken
    exact save_conflict_eq t rule now htaken
  · intro rule now d
    exact ⟨pairwise_filter_length_le_one _ d (inv_save t rule now hinv).1,
           pairwise_filter_length_le_one _ d (inv_update t rule now hinv).1⟩
  · intro ruleId d
    exact pairwise_filter_length_le_one _ d (inv_delete t ruleId hinv).1

theorem domain_uniqueness_witness :
    ((RuleRepository.Save emptyTable ⟨0, "example.com", "User-agent: *", 0, 0⟩ 5).2.rows.filter
        (fun r => r.domain == "example.com")).length ≤ 1 ∧
    RuleRepository.Save
        (RuleRepository.Save emptyTable ⟨0, "example.com", "User-agent: *", 0, 0⟩ 5).2
        ⟨0, "example.com", "Disallow: /", 0, 0⟩ 7
      = (.error (dupEntryError "example.com"),
         (RuleRepository.Save emptyTable ⟨0, "example.com", "User-agent: *", 0, 0⟩ 5).2) := by
  have hreach :
      Reachable (RuleRepository.Save emptyTable ⟨0, "example.com", "User-agent: *", 0, 0⟩ 5).2 :=
    Reachable.save emptyTable ⟨0, "example.com", "User-agent: *", 0, 0⟩ 5 Reachable.init
  have h := domain_uniqueness _ hreach
  exact ⟨h.1 "example.com", h.2.1 ⟨0, "example.com", "Disallow: /", 0, 0⟩ 7 (by decide)⟩

/-- GetById applied to strconv.Itoa output selects by the original integer id
(the MySQL coercion round trip). -/
theorem getById_itoa (t : CustomRuleTable) (i : Int) :
    RuleRepository.GetById t (itoa i)
      = (match sqlSelectById t i with
         | none => .error ("rule with id '" ++ itoa i ++ "' not found")
         | some rule => .ok rule) := by
  unfold RuleRepository.GetById
  rw [mysqlIntOfString_itoa]

/-- Selecting by id through the UPDATE row rewrite. -/
theorem find?_id_map (l : List Rule) (i j : Int) (d txt : String) (now : Nat) :
    (l.map (applySet i d txt now)).find? (fun r => r.id == j)
      = (l.find? (fun r => r.id == j)).map (applySet i d txt now) := by
  rw [List.find?_map]
  have hcomp : ((fun r : Rule => r.id == j) ∘ applySet i d txt now)
      = (fun r : Rule => r.id == j) := by
    funext r
    simp [Function.comp_apply, applySet_id_eq]
  rw [hcomp]

/-- Every Update failure leaves the table unchanged. -/
theorem update_error_unchanged (t : CustomRuleTable) (rule : Rule) (now : Nat) :
    ∀ e t2, RuleRepository.Update t rule now = (.error e, t2) → t2 = t := by
  intro e t2 heq
  cases hguard : (t.rows.any (fun r => r.id == rule.id) &&
      t.rows.any (fun r => r.domain == rule.domain && r.id != rule.id)) with
  | true =>
    rw [update_conflict_eq t rule now hguard] at heq
    exact (congrArg Prod.snd heq).symm
  | false =>
    rw [update_apply_eq t rule now hguard] at heq
    have h1 := congrArg Prod.fst heq
    have h2 := congrArg Prod.snd heq
    simp only [] at h1 h2
    rw [getById_itoa] at h1
    cases hsel : sqlSelectById
        ⟨t.rows.map (applySet rule.id rule.domain rule.robotsTxt now), t.nextId⟩ rule.id with
    | some r =>
      rw [hsel] at h1
      cases h1
    | none =>
      have hfind : t.rows.find? (fun r => r.id == rule.id) = none := by
        have hsel2 : (t.rows.map (applySet rule.id rule.domain rule.robotsTxt now)).find?
            (fun r => r.id == rule.id) = none := hsel
        rw [find?_id_map] at hsel2
        exact Option.map_eq_none'.mp hsel2
      have hmap : t.rows.map (applySet rule.id rule.domain rule.robotsTxt now) = t.rows := by
        apply map_applySet_eq_self
        intro r hr heq2
        rw [List.find?_eq_none] at hfind
        exact hfind r hr (by simp [heq2])
      rw [← h2, hmap]

/-- C7 (update semantics): for an existing id whose new domain no other row
holds, Update overwrites the row's domain and text and returns the row exactly
as re-read from the store; for a non-existent id it fails with the not-found
error and the store is unchanged; every Update failure leaves the store
unchanged; and in the update handler every non-200 outcome (an invalid new URL
included) leaves the store unchanged. -/
theorem update_semantics (t : CustomRuleTable) (rule : Rule) (now : Nat) :
    (∀ r0, sqlSelectById t rule.id = some r0 →
      (∀ r2 ∈ t.rows, r2.domain = rule.domain → r2.id = rule.id) →
      ∃ rr, RuleRepository.Update t rule now
          = (.ok rr,
             ⟨t.rows.map (applySet rule.id rule.domain rule.robotsTxt now), t.nextId⟩) ∧
        rr.domain = rule.domain ∧ rr.robotsTxt = rule.robotsTxt ∧
        sqlSelectById (RuleRepository.Update t rule now).2 rule.id = some rr) ∧
    (sqlSelectById t rule.id = none →
      RuleRepository.Update t rule now
        = (.error ("rule with id '" ++ itoa rule.id ++ "' not found"), t)) ∧
    (∀ e t2, RuleRepository.Update t rule now = (.error e, t2) → t2 = t) ∧
    (∀ id url body, (UpdateCustomRule t now id url body).1.status ≠ 200 →
      (UpdateCustomRule t now id url body).2 = t) := by
  refine ⟨?_, ?_, update_error_unchanged t rule now, ?_⟩
  · intro r0 hsel hother
    have hfind : t.rows.find? (fun r => r.id == rule.id) = some r0 := hsel
    have hid0 : r0.id = rule.id := by
      have := List.find?_some hfind
      simpa using this
    have hasId : t.rows.any (fun r => r.id == rule.id) = true :=
      List.any_eq_true.mpr ⟨r0, List.mem_of_find?_eq_some hfind, by simp [hid0]⟩
    have hnoother : t.rows.any (fun r => r.domain == rule.domain && r.id != rule.id)
        = false := by
      cases hval : t.rows.any (fun r => r.domain == rule.domain && r.id != rule.id) with
      | false => rfl
      | true =>
        obtain ⟨r, hr, hpred⟩ := List.any_eq_true.mp hval
        rw [Bool.and_eq_true] at hpred
        have hd : r.domain = rule.domain := by simpa using hpred.1
        have hne : r.id ≠ rule.id := by simpa using hpred.2
        exact absurd (hother r hr hd) hne
    have hguard : (t.rows.any (fun r => r.id == rule.id) &&
        t.rows.any (fun r => r.domain == rule.domain && r.id != rule.id)) = false := by
      rw [hnoother, Bool.and_false]
    rw [update_apply_eq t rule now hguard]
    have hselmap : sqlSelectById
        ⟨t.rows.map (applySet rule.id rule.domain rule.robotsTxt now), t.nextId⟩ rule.id
        = some (applySet rule.id rule.domain rule.robotsTxt now r0) := by
      show (t.rows.map (applySet rule.id rule.domain rule.robotsTxt now)).find?
        (fun r => r.id == rule.id) = _
      rw [find?_id_map, hfind]
      rfl
    refine ⟨applySet rule.id rule.domain rule.robotsTxt now r0, ?_, ?_, ?_, ?_⟩
    · rw [getById_itoa, hselmap]
    · rw [applySet_domain, if_pos hid0]
    · rw [applySet_robotsTxt, if_pos hid0]
    · exact hselmap
  · intro hnone
    have hfindn : t.rows.find? (fun r => r.id == rule.id) = none := hnone
    have hnoid : t.rows.any (fun r => r.id == rule.id) = false := by
      cases hval : t.rows.any (fun r => r.id == rule.id) with
      | false => rfl
      | true =>
        obtain ⟨r, hr, hpred⟩ := List.any_eq_true.mp hval
        rw [List.find?_eq_none] at hfindn
        exact absurd hpred (hfindn r hr)
    have hguard : (t.rows.any (fun r => r.id == rule.id) &&
        t.rows.any (fun r => r.domain == rule.domain && r.id != rule.id)) = false := by
      rw [hnoid, Bool.false_and]
    rw [update_apply_eq t rule now hguard]
    have hmap : t.rows.map (applySet rule.id rule.domain rule.robotsTxt now) = t.rows := by
      apply map_applySet_eq_self
      intro r hr heq2
      rw [List.find?_eq_none] at hfindn
      exact hfindn r hr (by simp [heq2])
    rw [hmap, getById_itoa]
    rw [show sqlSelectById ⟨t.rows, t.nextId⟩ rule.id = none from hnone]
  · intro id url body hstatus
    by_cases hid : id = ""
    · simp [UpdateCustomRule, hid]
    · cases hget : RuleRepository.GetById t id with
      | error e => simp [UpdateCustomRule, hid, hget]
      | ok rule2 =>
        cases hdom : GetDomain url with
        | error e => simp [UpdateCustomRule, hid, hget, hdom]
        | ok domain =>
          by_cases hbody : body = ""
          · simp [UpdateCustomRule, hid, hget, hdom, hbody]
          · cases hupd : RuleRepository.Update t
                { rule2 with domain := domain, robotsTxt := body } now with
            | mk res t2 =>
              cases res with
              | error e =>
                have ht2 := update_error_unchanged t
                  { rule2 with domain := domain, robotsTxt := body } now e t2 hupd
                simp [UpdateCustomRule, hid, hget, hdom, hbody, hupd, ht2]
              | ok rr =>
                exfalso
                apply hstatus
                simp [UpdateCustomRule, hid, hget, hdom, hbody, hupd]

theorem update_semantics_witness :
    RuleRepository.Update
        ⟨[⟨1, "example.com", "User-agent: *", 5, 5⟩], 2⟩ ⟨2, "example2.com", "B", 0, 0⟩ 9
      = (.error ("rule with id '" ++ itoa (2 : Int) ++ "' not found"),
         ⟨[⟨1, "example.com", "User-agent: *", 5, 5⟩], 2⟩) ∧
    (UpdateCustomRule ⟨[⟨1, "example.com", "User-agent: *", 5, 5⟩], 2⟩ 9
        "1" "example2.com/test" "Disallow: /").2
      = ⟨[⟨1, "example.com", "User-agent: *", 5, 5⟩], 2⟩ := by
  refine ⟨(update_semantics ⟨[⟨1, "example.com", "User-agent: *", 5, 5⟩], 2⟩
      ⟨2, "example2.com", "B", 0, 0⟩ 9).2.1 (by decide), ?_⟩
  exact (update_semantics ⟨[⟨1, "example.com", "User-agent: *", 5, 5⟩], 2⟩
      ⟨2, "example2.com", "B", 0, 0⟩ 9).2.2.2 "1" "example2.com/test" "Disallow: /" (by decide)

end RobotsApi
